import Mathlib

/-!
# Verification of the FCM push dispatch core (`server/push/fcm/push_fcm.go`)

Shallow embedding of the dispatch engine of the FCM push-notification
plugin: the per-batch notification sender (`sendFcm`) with its provider
error taxonomy, the topic subscription manager (`processSubscription`,
`handleSubErrors`), and the handler lifecycle (`Stop`, `IsReady`).

External collaborators (the FCM client, the notification preparation
step, and the device store) are modelled as oracles: functions supplied
as an environment, indexed by the sequence number of the call where the
source may call the same collaborator several times.  Each Go function
becomes a pure Lean function from its inputs and the oracle environment
to a *trace* recording the provider calls issued (in order), the
device-store deletions issued, and the log lines emitted.
-/

namespace FcmPush

/-- The `types.Uid` type is an integer user id; only equality matters here. -/
abbrev Uid := Nat

/-- Batch-size and buffer constants from the source. -/
def bufferSize : Nat := 1024

/-- The number of push messages sent in one batch (FCM constant). -/
def pushBatchSize : Nat := 100

/-- The number of sub/unsub requests sent in one batch (FCM constant). -/
def subBatchSize : Nat := 1000

/-- A provider error, abstracted to the predicates the source consults
(`fbmsg.IsQuotaExceeded`, `IsUnavailable`, `IsInternal`,
`IsSenderIDMismatch`, `IsInvalidArgument`, `IsThirdPartyAuthError`,
`IsUnregistered`).  Each field is the value of the corresponding
predicate on the underlying error. -/
structure FcmError where
  isQuotaExceeded : Bool
  isUnavailable : Bool
  isInternal : Bool
  isSenderIDMismatch : Bool
  isInvalidArgument : Bool
  isThirdPartyAuthError : Bool
  isUnregistered : Bool
deriving DecidableEq, Repr

/-- First guard of the classification chain in `sendFcm`:
`IsQuotaExceeded(err) || IsUnavailable(err) || IsInternal(err)`. -/
def FcmError.isTransientClass (e : FcmError) : Bool :=
  e.isQuotaExceeded || e.isUnavailable || e.isInternal

/-- Second guard of the classification chain in `sendFcm`:
`IsSenderIDMismatch(err) || IsInvalidArgument(err) || IsThirdPartyAuthError(err)`. -/
def FcmError.isConfigClass (e : FcmError) : Bool :=
  e.isSenderIDMismatch || e.isInvalidArgument || e.isThirdPartyAuthError

/-- One provider-ready message (`fbmsg.Message`); the dispatch core only
reads its `Token` field. -/
structure OutboundMessage where
  Token : String
deriving DecidableEq, Repr

/-- A delivery request (`push.Receipt`).  Opaque to the dispatch core:
it is only handed to the preparation collaborator. -/
structure Receipt where
  id : Nat
deriving DecidableEq, Repr

/-- The log lines the dispatch core can emit.  Constructors prefixed
`warn` correspond to `logs.Warn.Println`, the single `err` constructor
to `logs.Err.Println`. -/
inductive LogEntry where
  /-- Log line "fcm transient failure". -/
  | warnTransient
  /-- Log line "fcm invalid config". -/
  | warnConfig
  /-- Log line "fcm invalid token". -/
  | warnInvalidToken
  /-- Log line "fcm failed to delete invalid token". -/
  | warnDeleteFailed
  /-- Log line "fcm unrecognized error". -/
  | warnUnknown
  /-- Log line "fcm: user ... has more than 1000 devices". -/
  | warnTooManyDevices (uid : Uid)
  /-- Log line "fcm: sub or upsub failed". -/
  | warnSubFailed (unsub : Bool)
  /-- Log line "fcm sub/unsub error" with the failure reason and the device read
  from the submitted device list -/
  | warnSubError (reason : String) (uid : Uid) (device : String)
  /-- Log line "fcm: user ... invalid combination of sub/unsub channels/devices",
  the only `logs.Err` line of the dispatch core -/
  | errInvalidCombination (uid : Uid) (nDevices nChannels : Nat)
deriving DecidableEq, Repr

/-- Whether a log line is an error-level line (`logs.Err`). -/
def LogEntry.isErr : LogEntry → Bool
  | .errInvalidCombination _ _ _ => true
  | _ => false

/-- One provider send call: which variant was invoked (`SendDryRun`
when `dry = true`, `Send` otherwise) and the message passed. -/
structure SendCall where
  dry : Bool
  msg : OutboundMessage
deriving DecidableEq, Repr

/-- Trace of one `sendFcm` run: provider calls in order, device-store
deletions issued in order, log lines in order. -/
structure SendTrace where
  calls : List SendCall
  deletes : List (Uid × String)
  logs : List LogEntry
deriving DecidableEq, Repr

/-- Prepend one call together with its deletions and logs to a trace. -/
def SendTrace.prepend (c : SendCall) (ds : List (Uid × String))
    (ls : List LogEntry) (t : SendTrace) : SendTrace :=
  ⟨c :: t.calls, ds ++ t.deletes, ls ++ t.logs⟩

/-- The configuration fields the dispatch core itself reads
(`configType`; credential fields are consumed by initialization only). -/
structure ConfigType where
  Enabled : Bool
  DryRun : Bool
deriving DecidableEq, Repr

/-- Oracle environment for `sendFcm`: the preparation collaborator
(`PrepareNotifications`), the provider send result for the `i`-th call
(`true` selects the `SendDryRun` variant), and whether the device-store
deletion (`store.Devices.Delete`) fails. `none` from `sendResult` is a
nil error, `some e` an error with the given predicate values. -/
structure FcmEnv where
  prepare : Receipt → List OutboundMessage × List Uid
  sendResult : Nat → Bool → OutboundMessage → Option FcmError
  deleteFails : Uid → String → Bool

/-- The `for i := range messages` loop of `sendFcm`, from index `i` with
the remaining message suffix.  `uids` is the full owner-uid list;
the source indexes it as `uids[i]`, total because `PrepareNotifications`
returns index-aligned lists of equal length (spec data-model invariant),
so the lookup is rendered with `getD`. -/
def sendLoop (env : FcmEnv) (config : ConfigType) (uids : List Uid) :
    Nat → List OutboundMessage → SendTrace
  | _, [] => ⟨[], [], []⟩
  | i, m :: rest =>
    let call : SendCall := ⟨config.DryRun, m⟩
    match env.sendResult i config.DryRun m with
    | none => (sendLoop env config uids (i + 1) rest).prepend call [] []
    | some e =>
      if e.isTransientClass then
        -- Transient errors. Stop sending this batch.
        ⟨[call], [], [.warnTransient]⟩
      else if e.isConfigClass then
        -- Config errors. Stop.
        ⟨[call], [], [.warnConfig]⟩
      else if e.isUnregistered then
        -- Token is no longer valid. Delete token from DB and continue sending.
        let u := uids.getD i 0
        let ls : List LogEntry :=
          if env.deleteFails u m.Token then [.warnInvalidToken, .warnDeleteFailed]
          else [.warnInvalidToken]
        (sendLoop env config uids (i + 1) rest).prepend call [(u, m.Token)] ls
      else
        -- Unknown error. Stop sending just in case.
        ⟨[call], [], [.warnUnknown]⟩

/-- The function `sendFcm`: prepare the notifications, then send them one at a time. -/
def sendFcm (env : FcmEnv) (config : ConfigType) (rcpt : Receipt) : SendTrace :=
  let p := env.prepare rcpt
  sendLoop env config p.2 0 p.1

/-- A subscription request (`push.ChannelReq`). -/
structure ChannelReq where
  Uid : Uid
  Channel : String
  DeviceID : String
  Unsub : Bool
deriving DecidableEq, Repr

/-- One entry of `TopicManagementResponse.Errors` (`fbmsg.ErrorInfo`).
`Index` is the position, in the submitted device list, of the device
that failed; the SDK populates it from array positions, so it is
rendered as `Nat`. -/
structure ErrorInfo where
  Index : Nat
  Reason : String
deriving DecidableEq, Repr

/-- Result of a bulk subscribe/unsubscribe call
(`fbmsg.TopicManagementResponse`, the fields the source reads).
`FailureCount` is a Go `int`, kept as `Int` because the source tests
`<= 0`. -/
structure TopicManagementResponse where
  FailureCount : Int
  Errors : List ErrorInfo
deriving DecidableEq, Repr

/-- One bulk topic-management provider call: the operation
(`UnsubscribeFromTopic` when `unsub = true`, `SubscribeToTopic`
otherwise), the device list and the channel passed. -/
structure SubCall where
  unsub : Bool
  devices : List String
  channel : String
deriving DecidableEq, Repr

/-- Trace of one `processSubscription` run.  `panicked` records that the
run performed an out-of-range slice access (a Go runtime panic) inside
`handleSubErrors`; calls and logs record what happened before it. -/
structure SubTrace where
  calls : List SubCall
  logs : List LogEntry
  panicked : Bool
deriving DecidableEq, Repr

/-- Oracle environment for `processSubscription`: the device/channel
lookups and the two topic-management provider operations, indexed by the
sequence number of the call within the run.  `Except.error ()` is a
non-nil error from the provider (complete failure of the call). -/
structure SubEnv where
  devicesForUser : Uid → List String
  channelsForUser : Uid → List String
  subscribeToTopic : Nat → List String → String → Except Unit TopicManagementResponse
  unsubscribeFromTopic : Nat → List String → String → Except Unit TopicManagementResponse

/-- The `for _, errinfo := range response.Errors` loop of
`handleSubErrors`: one warning per entry, reading
`devices[errinfo.Index]`.  An out-of-range read returns the logs emitted
so far and the panic flag. -/
def subErrorLogs (uid : Uid) (devices : List String) :
    List ErrorInfo → List LogEntry × Bool
  | [] => ([], false)
  | e :: rest =>
    match devices[e.Index]? with
    | none => ([], true)
    | some d =>
      let r := subErrorLogs uid devices rest
      (LogEntry.warnSubError e.Reason uid d :: r.1, r.2)

/-- The function `handleSubErrors`: nothing to do unless `FailureCount > 0`,
otherwise log every reported failure. -/
def handleSubErrors (response : TopicManagementResponse) (uid : Uid)
    (devices : List String) : List LogEntry × Bool :=
  if response.FailureCount ≤ 0 then ([], false)
  else subErrorLogs uid devices response.Errors

/-- The `for _, channel := range channels` loop of the fixed-device
shape of `processSubscription`: one call per channel with the
single-element device list, `break` on the first call that fails
outright, `handleSubErrors` on each response.  `k` is the sequence
number of the next provider call. -/
def subChannelLoop (env : SubEnv) (unsub : Bool) (uid : Uid) (device : String) :
    Nat → List String → SubTrace
  | _, [] => ⟨[], [], false⟩
  | k, ch :: rest =>
    let call : SubCall := ⟨unsub, [device], ch⟩
    match (if unsub then env.unsubscribeFromTopic k [device] ch
           else env.subscribeToTopic k [device] ch) with
    | .error _ =>
      -- Complete failure.
      ⟨[call], [.warnSubFailed unsub], false⟩
    | .ok resp =>
      -- Check for partial failure.
      let r := handleSubErrors resp uid [device]
      if r.2 then ⟨[call], r.1, true⟩
      else
        let t := subChannelLoop env unsub uid device (k + 1) rest
        ⟨call :: t.calls, r.1 ++ t.logs, t.panicked⟩

/-- The request-resolution prologue of `processSubscription` (the four
local variables `channel`, `devices`, `device`, `channels`). -/
structure Resolution where
  channel : String
  devices : List String
  device : String
  channels : List String
deriving Repr

/-- Resolve the varying dimension of a request exactly as the source
does: a fixed channel resolves the user's devices, else a fixed device
identifier resolves the user's channels. -/
def resolve (env : SubEnv) (req : ChannelReq) : Resolution :=
  if req.Channel ≠ "" then ⟨req.Channel, env.devicesForUser req.Uid, "", []⟩
  else if req.DeviceID ≠ "" then ⟨"", [], req.DeviceID, env.channelsForUser req.Uid⟩
  else ⟨"", [], "", []⟩

/-- The function `processSubscription`: resolve, reject empties, truncate oversized
device lists, then execute the fixed-channel or fixed-device shape. -/
def processSubscription (env : SubEnv) (req : ChannelReq) : SubTrace :=
  let r := resolve env req
  if (r.devices.length = 0 ∧ r.device = "") ∨
      (r.channels.length = 0 ∧ r.channel = "") then
    -- No channels or devces to subscribe or unsubscribe.
    ⟨[], [], false⟩
  else
    let devices :=
      if r.devices.length > subBatchSize then r.devices.take subBatchSize
      else r.devices
    let warnLogs : List LogEntry :=
      if r.devices.length > subBatchSize then [.warnTooManyDevices req.Uid] else []
    if r.channel ≠ "" ∧ devices.length > 0 then
      let call : SubCall := ⟨req.Unsub, devices, r.channel⟩
      match (if req.Unsub then env.unsubscribeFromTopic 0 devices r.channel
             else env.subscribeToTopic 0 devices r.channel) with
      | .error _ =>
        -- Complete failure.
        ⟨[call], warnLogs ++ [.warnSubFailed req.Unsub], false⟩
      | .ok resp =>
        -- Check for partial failure.
        let hr := handleSubErrors resp req.Uid devices
        ⟨[call], warnLogs ++ hr.1, hr.2⟩
    else if r.device ≠ "" ∧ r.channels.length > 0 then
      let t := subChannelLoop env req.Unsub req.Uid r.device 0 r.channels
      ⟨t.calls, warnLogs ++ t.logs, t.panicked⟩
    else
      -- Invalid request: either multiple channels & multiple devices
      -- (not supported) or no channels and no devices.
      ⟨[], warnLogs ++ [.errInvalidCombination req.Uid devices.length r.channels.length],
        false⟩

/-- The handler state (`Handler`): the two ingress channels, modelled as
their buffered contents when initialized, the single-slot stop channel
modelled as its buffered contents, and the opaque context and client
handles. -/
structure Handler where
  input : Option (List Receipt)
  channel : Option (List ChannelReq)
  stop : List Bool
  ctx : Option Unit
  client : Option Unit
deriving Repr

/-- The method `IsReady` checks if the push handler has been initialized
(`handler.input != nil`). -/
def Handler.IsReady (s : Handler) : Bool :=
  s.input.isSome

/-- The method `Stop` sends `true` on the stop channel (`handler.stop <- true`).
The channel is buffered with capacity 1, so the send completes exactly
when the buffer has room; a send on a full buffer blocks, rendered as
`none`. -/
def Handler.Stop (s : Handler) : Option Handler :=
  if s.stop.length < 1 then some { s with stop := s.stop ++ [true] }
  else none

/-! ## Concrete fixtures used to instantiate the theorems -/

/-- Three prepared messages. -/
def wMsgs : List OutboundMessage := [⟨"ta"⟩, ⟨"tb"⟩, ⟨"tc"⟩]

/-- The three aligned owner uids. -/
def wUids : List Uid := [11, 12, 13]

/-- An environment in which every provider send succeeds. -/
def envAllOk : FcmEnv :=
  ⟨fun _ => (wMsgs, wUids), fun _ _ _ => none, fun _ _ => false⟩

/-- An error for which only `IsUnregistered` holds. -/
def unregisteredErr : FcmError := ⟨false, false, false, false, false, false, true⟩

/-- An error for which only `IsQuotaExceeded` holds (transient class). -/
def transientErr : FcmError := ⟨true, false, false, false, false, false, false⟩

/-- An environment in which the second send reports an unregistered
token and every other send succeeds. -/
def envUnreg : FcmEnv :=
  ⟨fun _ => (wMsgs, wUids),
   fun i _ _ => if i = 1 then some unregisteredErr else none,
   fun _ _ => false⟩

/-- An environment in which the second send reports a transient error
and every other send succeeds. -/
def envTransient : FcmEnv :=
  ⟨fun _ => (wMsgs, wUids),
   fun i _ _ => if i = 1 then some transientErr else none,
   fun _ _ => false⟩

/-- A fully successful topic-management response. -/
def okResp : TopicManagementResponse := ⟨0, []⟩

/-- A subscription environment in which every lookup and call succeeds. -/
def subEnvOk : SubEnv :=
  ⟨fun _ => ["t1", "t2", "t3"], fun _ => ["c1", "c2"],
   fun _ _ _ => .ok okResp, fun _ _ _ => .ok okResp⟩

/-- A subscription environment whose second topic-management call fails
outright; the user has one device and three channels. -/
def subEnvFail2 : SubEnv :=
  ⟨fun _ => ["t1"], fun _ => ["c1", "c2", "c3"],
   fun k _ _ => if k = 1 then .error () else .ok okResp,
   fun k _ _ => if k = 1 then .error () else .ok okResp⟩

/-- A subscription environment in which the user has 1001 devices. -/
def subEnvBig : SubEnv :=
  ⟨fun _ => List.replicate 1001 "x", fun _ => [],
   fun _ _ _ => .ok okResp, fun _ _ _ => .ok okResp⟩

/-- An initialized handler with empty buffers. -/
def handlerReady : Handler := ⟨some [], some [], [], some (), some ()⟩

/-! ## Helper lemmas on the sender loop -/

/-- If every send from position `i` on succeeds, the loop issues one
call per message, in order, with no deletions and no logs. -/
theorem sendLoop_all_success (env : FcmEnv) (config : ConfigType) (uids : List Uid)
    (msgs : List OutboundMessage) (i : Nat)
    (hs : ∀ k (hk : k < msgs.length), env.sendResult (i + k) config.DryRun msgs[k] = none) :
    sendLoop env config uids i msgs =
      ⟨msgs.map (fun m => ⟨config.DryRun, m⟩), [], []⟩ := by
  induction msgs generalizing i with
  | nil => rfl
  | cons m rest ih =>
    have h0 : env.sendResult i config.DryRun m = none := by
      simpa using hs 0 (by simp)
    have hrest : ∀ k (hk : k < rest.length),
        env.sendResult (i + 1 + k) config.DryRun rest[k] = none := by
      intro k hk
      have := hs (k + 1) (by simpa using Nat.succ_lt_succ hk)
      simpa [Nat.add_comm, Nat.add_assoc, Nat.add_left_comm] using this
    simp [sendLoop, h0, ih (i + 1) hrest, SendTrace.prepend]

/-- Processing `pre ++ rest` when every send over `pre` succeeds: the
calls for `pre` happen first, then the loop continues on `rest`. -/
theorem sendLoop_append_success (env : FcmEnv) (config : ConfigType) (uids : List Uid)
    (pre rest : List OutboundMessage) (i : Nat)
    (hs : ∀ k (hk : k < pre.length), env.sendResult (i + k) config.DryRun pre[k] = none) :
    sendLoop env config uids i (pre ++ rest) =
      ⟨pre.map (fun m => ⟨config.DryRun, m⟩) ++
          (sendLoop env config uids (i + pre.length) rest).calls,
        (sendLoop env config uids (i + pre.length) rest).deletes,
        (sendLoop env config uids (i + pre.length) rest).logs⟩ := by
  induction pre generalizing i with
  | nil => simp
  | cons m ms ih =>
    have h0 : env.sendResult i config.DryRun m = none := by
      simpa using hs 0 (by simp)
    have hms : ∀ k (hk : k < ms.length),
        env.sendResult (i + 1 + k) config.DryRun ms[k] = none := by
      intro k hk
      have := hs (k + 1) (by simpa using Nat.succ_lt_succ hk)
      simpa [Nat.add_comm, Nat.add_assoc, Nat.add_left_comm] using this
    simp [sendLoop, h0, ih (i + 1) hms, SendTrace.prepend, Nat.add_comm,
      Nat.add_assoc, Nat.add_left_comm]

/-- One loop step on an unregistered-token error: record the call,
issue the deletion, and continue with the rest. -/
theorem sendLoop_cons_unregistered (env : FcmEnv) (config : ConfigType)
    (uids : List Uid) (i : Nat) (m : OutboundMessage) (rest : List OutboundMessage)
    (e : FcmError) (he : env.sendResult i config.DryRun m = some e)
    (ht : e.isTransientClass = false) (hc : e.isConfigClass = false)
    (hu : e.isUnregistered = true) :
    sendLoop env config uids i (m :: rest) =
      (sendLoop env config uids (i + 1) rest).prepend ⟨config.DryRun, m⟩
        [(uids.getD i 0, m.Token)]
        (if env.deleteFails (uids.getD i 0) m.Token then
          [.warnInvalidToken, .warnDeleteFailed] else [.warnInvalidToken]) := by
  simp [sendLoop, he, ht, hc, hu]

/-- One loop step on a transient, configuration, or unknown error:
record the call and stop, with no deletion. -/
theorem sendLoop_cons_abort (env : FcmEnv) (config : ConfigType)
    (uids : List Uid) (i : Nat) (m : OutboundMessage) (rest : List OutboundMessage)
    (e : FcmError) (he : env.sendResult i config.DryRun m = some e)
    (hclass : e.isTransientClass = true ∨ e.isConfigClass = true ∨
      (e.isTransientClass = false ∧ e.isConfigClass = false ∧ e.isUnregistered = false)) :
    (sendLoop env config uids i (m :: rest)).calls = [⟨config.DryRun, m⟩] ∧
    (sendLoop env config uids i (m :: rest)).deletes = [] := by
  rcases hclass with h | h | ⟨h1, h2, h3⟩
  · constructor <;> simp [sendLoop, he, h]
  · by_cases h1 : e.isTransientClass <;> constructor <;> simp [sendLoop, he, h, h1]
  · constructor <;> simp [sendLoop, he, h1, h2, h3]

/-! ## Claim theorems: the notification sender -/

/-- C7: for every delivery whose prepared message list has `N` entries,
if every provider send succeeds, then exactly `N` provider calls occur,
one per message in list order, and no device-store delete is issued. -/
theorem sendFcm_all_success_trace (env : FcmEnv) (config : ConfigType) (rcpt : Receipt)
    (messages : List OutboundMessage) (uids : List Uid)
    (hp : env.prepare rcpt = (messages, uids))
    (hs : ∀ i m, env.sendResult i config.DryRun m = none) :
    (sendFcm env config rcpt).calls = messages.map (fun m => ⟨config.DryRun, m⟩) ∧
    (sendFcm env config rcpt).deletes = [] := by
  have h := sendLoop_all_success env config uids messages 0 (fun k _ => hs _ _)
  simp [sendFcm, hp, h]

/-- Witness for C7 at a concrete delivery of three messages. -/
theorem sendFcm_all_success_trace_witness :
    (sendFcm envAllOk ⟨true, false⟩ ⟨0⟩).calls =
      [⟨false, ⟨"ta"⟩⟩, ⟨false, ⟨"tb"⟩⟩, ⟨false, ⟨"tc"⟩⟩] ∧
    (sendFcm envAllOk ⟨true, false⟩ ⟨0⟩).deletes = [] :=
  sendFcm_all_success_trace envAllOk ⟨true, false⟩ ⟨0⟩ wMsgs wUids rfl
    (fun _ _ => rfl)

/-- C2: if the provider call for message `i` returns an unregistered
(invalid-token) error and every other call succeeds, exactly one
device-store delete is issued, for message `i`'s (owner-uid, token)
pair, and sending continues through the whole list: exactly `N`
provider calls occur, in order. -/
theorem sendFcm_unregistered_continues (env : FcmEnv) (config : ConfigType)
    (rcpt : Receipt) (messages : List OutboundMessage) (uids : List Uid) (i : Nat)
    (hp : env.prepare rcpt = (messages, uids))
    (hi : i < messages.length) (hiu : i < uids.length) (e : FcmError)
    (he : env.sendResult i config.DryRun messages[i] = some e)
    (ht : e.isTransientClass = false) (hc : e.isConfigClass = false)
    (hu : e.isUnregistered = true)
    (hothers : ∀ j (hj : j < messages.length), j ≠ i →
      env.sendResult j config.DryRun messages[j] = none) :
    (sendFcm env config rcpt).calls = messages.map (fun m => ⟨config.DryRun, m⟩) ∧
    (sendFcm env config rcpt).deletes = [(uids.get ⟨i, hiu⟩, messages[i].Token)] := by
  have hsf : sendFcm env config rcpt = sendLoop env config uids 0 messages := by
    simp [sendFcm, hp]
  have hdecomp : messages = messages.take i ++ (messages[i] :: messages.drop (i + 1)) := by
    rw [← List.drop_eq_getElem_cons hi, List.take_append_drop]
  have hpre : ∀ k (hk : k < (messages.take i).length),
      env.sendResult (0 + k) config.DryRun (messages.take i)[k] = none := by
    intro k hk
    have hk' := hk
    simp [List.length_take] at hk'
    have hki : k < i := hk'.1
    have hkm : k < messages.length := lt_trans hki hi
    have hget : (messages.take i)[k] = messages[k] := List.getElem_take _
    rw [Nat.zero_add, hget]
    exact hothers k hkm (Nat.ne_of_lt hki)
  have hlen : (messages.take i).length = i := by
    simp [List.length_take]; omega
  have hpost : ∀ k (hk : k < (messages.drop (i + 1)).length),
      env.sendResult (i + 1 + k) config.DryRun (messages.drop (i + 1))[k] = none := by
    intro k hk
    have hkm : i + 1 + k < messages.length := by
      have hk' := hk; simp [List.length_drop] at hk'; omega
    have hget : (messages.drop (i + 1))[k] = messages[i + 1 + k] := List.getElem_drop _
    rw [hget]
    exact hothers (i + 1 + k) hkm (by omega)
  have happ := sendLoop_append_success env config uids (messages.take i)
    (messages[i] :: messages.drop (i + 1)) 0 hpre
  have hstep := sendLoop_cons_unregistered env config uids i messages[i]
    (messages.drop (i + 1)) e he ht hc hu
  have hrest := sendLoop_all_success env config uids (messages.drop (i + 1)) (i + 1) hpost
  have hgetd : uids.getD i 0 = uids.get ⟨i, hiu⟩ := by
    simp [List.getD_eq_getElem?_getD, List.getElem?_eq_getElem hiu]
  constructor
  · rw [hsf]
    conv_lhs => rw [hdecomp]
    rw [happ]
    simp only [Nat.zero_add, hlen, hstep, hrest, SendTrace.prepend]
    conv_rhs => rw [hdecomp]
    rw [List.map_append, List.map_cons]
  · rw [hsf]
    conv_lhs => rw [hdecomp]
    rw [happ]
    simp only [Nat.zero_add, hlen, hstep, hrest, SendTrace.prepend]
    simp [List.getElem?_eq_getElem hiu]

/-- Witness for C2: second of three messages has an invalid token; all
three are attempted and the single delete is for (uid 12, token "tb"). -/
theorem sendFcm_unregistered_continues_witness :
    (sendFcm envUnreg ⟨true, false⟩ ⟨0⟩).calls =
      wMsgs.map (fun m => ⟨false, m⟩) ∧
    (sendFcm envUnreg ⟨true, false⟩ ⟨0⟩).deletes = [(12, "tb")] :=
  sendFcm_unregistered_continues envUnreg ⟨true, false⟩ ⟨0⟩ wMsgs wUids 1 rfl
    (by decide) (by decide) unregisteredErr rfl rfl rfl rfl
    (fun j hj hne => by
      have : j ≠ 1 := hne
      simp [envUnreg, this])

/-- C3: if the provider call for message `i` returns a transient,
permanent-configuration, or unknown error (and the calls before it
succeeded), sending stops after call `i`: exactly `i + 1` calls occur
and no device-store delete is issued. -/
theorem sendFcm_abort_on_error (env : FcmEnv) (config : ConfigType)
    (rcpt : Receipt) (messages : List OutboundMessage) (uids : List Uid) (i : Nat)
    (hp : env.prepare rcpt = (messages, uids))
    (hi : i < messages.length) (e : FcmError)
    (he : env.sendResult i config.DryRun messages[i] = some e)
    (hclass : e.isTransientClass = true ∨ e.isConfigClass = true ∨
      (e.isTransientClass = false ∧ e.isConfigClass = false ∧ e.isUnregistered = false))
    (hbefore : ∀ j (hj : j < i),
      env.sendResult j config.DryRun (messages.get ⟨j, Nat.lt_trans hj hi⟩) = none) :
    (sendFcm env config rcpt).calls =
      (messages.take (i + 1)).map (fun m => ⟨config.DryRun, m⟩) ∧
    (sendFcm env config rcpt).deletes = [] := by
  have hsf : sendFcm env config rcpt = sendLoop env config uids 0 messages := by
    simp [sendFcm, hp]
  have hdecomp : messages = messages.take i ++ (messages[i] :: messages.drop (i + 1)) := by
    rw [← List.drop_eq_getElem_cons hi, List.take_append_drop]
  have hpre : ∀ k (hk : k < (messages.take i).length),
      env.sendResult (0 + k) config.DryRun (messages.take i)[k] = none := by
    intro k hk
    have hk' := hk
    simp [List.length_take] at hk'
    have hki : k < i := hk'.1
    have hkm : k < messages.length := lt_trans hki hi
    have hget : (messages.take i)[k] = messages[k] := List.getElem_take _
    rw [Nat.zero_add, hget]
    exact hbefore k hki
  have hlen : (messages.take i).length = i := by
    simp [List.length_take]; omega
  have happ := sendLoop_append_success env config uids (messages.take i)
    (messages[i] :: messages.drop (i + 1)) 0 hpre
  have hstep := sendLoop_cons_abort env config uids i messages[i]
    (messages.drop (i + 1)) e he hclass
  have htake : messages.take (i + 1) = messages.take i ++ [messages[i]] := by
    rw [List.take_succ]
    simp [List.getElem?_eq_getElem hi]
  constructor
  · rw [hsf]
    conv_lhs => rw [hdecomp]
    rw [happ]
    simp only [Nat.zero_add, hlen]
    rw [hstep.1, htake, List.map_append]
    rfl
  · rw [hsf]
    conv_lhs => rw [hdecomp]
    rw [happ]
    simp only [Nat.zero_add, hlen]
    rw [hstep.2]

/-- Witness for C3: second of three messages hits a transient error;
exactly two calls occur and nothing is deleted. -/
theorem sendFcm_abort_on_error_witness :
    (sendFcm envTransient ⟨true, false⟩ ⟨0⟩).calls =
      (wMsgs.take 2).map (fun m => ⟨false, m⟩) ∧
    (sendFcm envTransient ⟨true, false⟩ ⟨0⟩).deletes = [] :=
  sendFcm_abort_on_error envTransient ⟨true, false⟩ ⟨0⟩ wMsgs wUids 1 rfl
    (by decide) transientErr rfl (Or.inl rfl)
    (fun j hj => by
      have : j ≠ 1 := by omega
      simp [envTransient, this])

/-- Every call recorded by the loop uses the variant selected by the
configuration's dry-run flag. -/
theorem sendLoop_calls_dry (env : FcmEnv) (config : ConfigType) (uids : List Uid) :
    ∀ (i : Nat) (msgs : List OutboundMessage),
      ∀ c ∈ (sendLoop env config uids i msgs).calls, c.dry = config.DryRun := by
  intro i msgs
  induction msgs generalizing i with
  | nil => intro c hc; simp [sendLoop] at hc
  | cons m rest ih =>
    intro c hc
    simp only [sendLoop] at hc
    cases hres : env.sendResult i config.DryRun m with
    | none =>
      rw [hres] at hc
      simp only [SendTrace.prepend] at hc
      rcases List.mem_cons.mp hc with h | h
      · rw [h]
      · exact ih (i + 1) c h
    | some e =>
      rw [hres] at hc
      by_cases h1 : e.isTransientClass
      · simp [h1] at hc; rw [hc]
      · by_cases h2 : e.isConfigClass
        · simp [h1, h2] at hc; rw [hc]
        · by_cases h3 : e.isUnregistered
          · simp only [h1, h2, h3, Bool.false_eq_true, if_false, if_true,
              SendTrace.prepend] at hc
            rcases List.mem_cons.mp hc with h | h
            · rw [h]
            · exact ih (i + 1) c h
          · simp [h1, h2, h3] at hc; rw [hc]

/-- If the two environments' consulted send results and device-store
results agree pointwise, the loop behaves identically under the two
configurations: same messages attempted (in order), same deletions,
same logs. -/
theorem sendLoop_policy (env env' : FcmEnv) (config config' : ConfigType)
    (uids : List Uid)
    (hsr : ∀ i m, env.sendResult i config.DryRun m = env'.sendResult i config'.DryRun m)
    (hdel : ∀ u t, env.deleteFails u t = env'.deleteFails u t) :
    ∀ (i : Nat) (msgs : List OutboundMessage),
      (sendLoop env config uids i msgs).calls.map SendCall.msg =
        (sendLoop env' config' uids i msgs).calls.map SendCall.msg ∧
      (sendLoop env config uids i msgs).deletes =
        (sendLoop env' config' uids i msgs).deletes ∧
      (sendLoop env config uids i msgs).logs =
        (sendLoop env' config' uids i msgs).logs := by
  intro i msgs
  induction msgs generalizing i with
  | nil => exact ⟨rfl, rfl, rfl⟩
  | cons m rest ih =>
    have hih := ih (i + 1)
    simp only [sendLoop, ← hsr i m]
    cases hres : env.sendResult i config.DryRun m with
    | none =>
      simp only [SendTrace.prepend]
      exact ⟨by simp [hih.1], by simp [hih.2.1], by simp [hih.2.2]⟩
    | some e =>
      by_cases h1 : e.isTransientClass
      · simp [h1]
      · by_cases h2 : e.isConfigClass
        · simp [h1, h2]
        · by_cases h3 : e.isUnregistered
          · simp only [h1, h2, h3, Bool.false_eq_true, if_false, if_true,
              SendTrace.prepend, ← hdel]
            refine ⟨by simp [hih.1], by simp [hih.2.1], ?_⟩
            by_cases hd : env.deleteFails (uids.getD i 0) m.Token <;>
              simp [hd, hih.2.2]
          · simp [h1, h2, h3]

/-- C8: when the dry-run flag is set every message goes through the
non-delivering validation variant and the real send is never invoked;
when unset every message goes through the real send; and whenever the
consulted provider results agree, the two paths attempt the same
messages and produce the same deletions and logs — the classification
and abort/continue policy is identical. -/
theorem sendFcm_dry_run_routing (env env' : FcmEnv) (config config' : ConfigType)
    (rcpt : Receipt)
    (hp : env.prepare rcpt = env'.prepare rcpt)
    (hsr : ∀ i m, env.sendResult i config.DryRun m = env'.sendResult i config'.DryRun m)
    (hdel : ∀ u t, env.deleteFails u t = env'.deleteFails u t) :
    (∀ c ∈ (sendFcm env config rcpt).calls, c.dry = config.DryRun) ∧
    (∀ c ∈ (sendFcm env' config' rcpt).calls, c.dry = config'.DryRun) ∧
    (sendFcm env config rcpt).calls.map SendCall.msg =
      (sendFcm env' config' rcpt).calls.map SendCall.msg ∧
    (sendFcm env config rcpt).deletes = (sendFcm env' config' rcpt).deletes ∧
    (sendFcm env config rcpt).logs = (sendFcm env' config' rcpt).logs := by
  refine ⟨fun c hc => sendLoop_calls_dry env config _ 0 _ c hc,
    fun c hc => sendLoop_calls_dry env' config' _ 0 _ c hc, ?_⟩
  have h := sendLoop_policy env env' config config' (env.prepare rcpt).2 hsr hdel 0
    (env.prepare rcpt).1
  unfold sendFcm
  rw [← hp]
  exact h

/-- Witness for C8: same environment, dry-run flag set on one side and
unset on the other; the traces agree up to the variant flag, and each
side's calls all carry its own flag. -/
theorem sendFcm_dry_run_routing_witness :
    (∀ c ∈ (sendFcm envUnreg ⟨true, true⟩ ⟨0⟩).calls, c.dry = true) ∧
    (∀ c ∈ (sendFcm envUnreg ⟨true, false⟩ ⟨0⟩).calls, c.dry = false) ∧
    (sendFcm envUnreg ⟨true, true⟩ ⟨0⟩).calls.map SendCall.msg =
      (sendFcm envUnreg ⟨true, false⟩ ⟨0⟩).calls.map SendCall.msg ∧
    (sendFcm envUnreg ⟨true, true⟩ ⟨0⟩).deletes =
      (sendFcm envUnreg ⟨true, false⟩ ⟨0⟩).deletes ∧
    (sendFcm envUnreg ⟨true, true⟩ ⟨0⟩).logs =
      (sendFcm envUnreg ⟨true, false⟩ ⟨0⟩).logs :=
  sendFcm_dry_run_routing envUnreg envUnreg ⟨true, true⟩ ⟨true, false⟩ ⟨0⟩ rfl
    (fun _ _ => rfl) (fun _ _ => rfl)

/-! ## Helper lemmas on the subscription manager -/

/-- If every reported failure index is within the submitted device
list, the per-entry logging loop performs no out-of-range access. -/
theorem subErrorLogs_inbounds (uid : Uid) (devices : List String) :
    ∀ es : List ErrorInfo, (∀ e ∈ es, e.Index < devices.length) →
      (subErrorLogs uid devices es).2 = false := by
  intro es
  induction es with
  | nil => intro _; rfl
  | cons e rest ih =>
    intro h
    have he : e.Index < devices.length := h e (by simp)
    have hrest := ih (fun x hx => h x (by simp [hx]))
    simp [subErrorLogs, List.getElem?_eq_getElem he, hrest]

/-- The function `handleSubErrors` performs no out-of-range access when every
reported failure index is within the submitted device list. -/
theorem handleSubErrors_inbounds (resp : TopicManagementResponse) (uid : Uid)
    (devices : List String) (h : ∀ e ∈ resp.Errors, e.Index < devices.length) :
    (handleSubErrors resp uid devices).2 = false := by
  unfold handleSubErrors
  split
  · rfl
  · exact subErrorLogs_inbounds uid devices resp.Errors h

/-- The per-entry logging loop emits warning lines only. -/
theorem subErrorLogs_noErr (uid : Uid) (devices : List String) :
    ∀ es : List ErrorInfo,
      ((subErrorLogs uid devices es).1.any LogEntry.isErr) = false := by
  intro es
  induction es with
  | nil => rfl
  | cons e rest ih =>
    cases hg : devices[e.Index]? with
    | none => simp [subErrorLogs, hg]
    | some d => simp [subErrorLogs, hg, ih, LogEntry.isErr]

/-- The function `handleSubErrors` emits warning lines only. -/
theorem handleSubErrors_noErr (resp : TopicManagementResponse) (uid : Uid)
    (devices : List String) :
    ((handleSubErrors resp uid devices).1.any LogEntry.isErr) = false := by
  unfold handleSubErrors
  split
  · rfl
  · exact subErrorLogs_noErr uid devices resp.Errors

/-- The fixed-device channel loop emits warning lines only. -/
theorem subChannelLoop_noErr (env : SubEnv) (unsub : Bool) (uid : Uid)
    (device : String) :
    ∀ (k : Nat) (chs : List String),
      ((subChannelLoop env unsub uid device k chs).logs.any LogEntry.isErr) = false := by
  intro k chs
  induction chs generalizing k with
  | nil => rfl
  | cons ch rest ih =>
    simp only [subChannelLoop]
    cases hres : (if unsub then env.unsubscribeFromTopic k [device] ch
        else env.subscribeToTopic k [device] ch) with
    | error e => simp [LogEntry.isErr]
    | ok resp =>
      by_cases hp : (handleSubErrors resp uid [device]).2
      · simp [hp, handleSubErrors_noErr]
      · simp [hp, handleSubErrors_noErr, ih (k + 1)]

/-- One step of the fixed-device loop on a call that fails outright:
one call recorded, one warning, the remaining channels abandoned. -/
theorem subChannelLoop_cons_fail (env : SubEnv) (unsub : Bool) (uid : Uid)
    (device : String) (k : Nat) (ch : String) (rest : List String)
    (hfail : (if unsub then env.unsubscribeFromTopic k [device] ch
      else env.subscribeToTopic k [device] ch) = .error ()) :
    subChannelLoop env unsub uid device k (ch :: rest) =
      ⟨[⟨unsub, [device], ch⟩], [.warnSubFailed unsub], false⟩ := by
  simp [subChannelLoop, hfail]

/-- Processing `pre ++ rest` when every call over `pre` succeeds with a
response whose failure indices are in bounds: one call per channel of
`pre`, then the loop continues on `rest`. -/
theorem subChannelLoop_append_ok (env : SubEnv) (unsub : Bool) (uid : Uid)
    (device : String) (resps : Nat → TopicManagementResponse)
    (hin : ∀ j, ∀ e ∈ (resps j).Errors, e.Index < 1) :
    ∀ (pre rest : List String) (k : Nat),
      (∀ j (hj : j < pre.length),
        (if unsub then env.unsubscribeFromTopic (k + j) [device] pre[j]
         else env.subscribeToTopic (k + j) [device] pre[j]) = .ok (resps (k + j))) →
      (subChannelLoop env unsub uid device k (pre ++ rest)).calls =
        pre.map (fun c => ⟨unsub, [device], c⟩) ++
          (subChannelLoop env unsub uid device (k + pre.length) rest).calls ∧
      (subChannelLoop env unsub uid device k (pre ++ rest)).panicked =
        (subChannelLoop env unsub uid device (k + pre.length) rest).panicked := by
  intro pre
  induction pre with
  | nil => intro rest k _; simp
  | cons ch ms ih =>
    intro rest k hok
    have h0 : (if unsub then env.unsubscribeFromTopic k [device] ch
        else env.subscribeToTopic k [device] ch) = .ok (resps k) := by
      simpa using hok 0 (by simp)
    have hms : ∀ j (hj : j < ms.length),
        (if unsub then env.unsubscribeFromTopic (k + 1 + j) [device] ms[j]
         else env.subscribeToTopic (k + 1 + j) [device] ms[j]) =
          .ok (resps (k + 1 + j)) := by
      intro j hj
      have := hok (j + 1) (by simpa using Nat.succ_lt_succ hj)
      simpa [Nat.add_comm, Nat.add_assoc, Nat.add_left_comm] using this
    have hnp : (handleSubErrors (resps k) uid [device]).2 = false :=
      handleSubErrors_inbounds _ _ _ (by simpa using hin k)
    have hih := ih rest (k + 1) hms
    simp only [List.cons_append, subChannelLoop, h0, hnp, Bool.false_eq_true,
      if_false]
    constructor
    · simp [hih.1, Nat.add_comm, Nat.add_assoc, Nat.add_left_comm]
    · simp [hih.2, Nat.add_comm, Nat.add_assoc, Nat.add_left_comm]

/-- A fixed-device request with a non-empty resolved channel list runs
the per-channel loop and returns its trace. -/
theorem processSubscription_fixed_device (env : SubEnv) (req : ChannelReq)
    (cs : List String) (hch : req.Channel = "") (hdev : req.DeviceID ≠ "")
    (hcs : env.channelsForUser req.Uid = cs) (h0 : cs ≠ []) :
    processSubscription env req =
      ⟨(subChannelLoop env req.Unsub req.Uid req.DeviceID 0 cs).calls,
        (subChannelLoop env req.Unsub req.Uid req.DeviceID 0 cs).logs,
        (subChannelLoop env req.Unsub req.Uid req.DeviceID 0 cs).panicked⟩ := by
  have hres : resolve env req = ⟨"", [], req.DeviceID, cs⟩ := by
    simp [resolve, hch, hdev, hcs]
  have hlen : cs.length ≠ 0 := by simpa using h0
  unfold processSubscription
  rw [hres]
  simp [hdev, hlen, Nat.pos_of_ne_zero hlen]

/-- C4: for a fixed-device request resolving to channels `c1..cM`, one
bulk call per channel is issued in list order, each with the
single-element device list; and if the call for channel index `K` fails
outright, exactly `K + 1` calls are made and the remaining channels are
never attempted. -/
theorem processSubscription_fixed_device_per_channel (env : SubEnv)
    (req : ChannelReq) (cs : List String) (resps : Nat → TopicManagementResponse)
    (hch : req.Channel = "") (hdev : req.DeviceID ≠ "")
    (hcs : env.channelsForUser req.Uid = cs) (h0 : cs ≠ [])
    (hin : ∀ j, ∀ e ∈ (resps j).Errors, e.Index < 1) :
    ((∀ j (hj : j < cs.length),
        (if req.Unsub then env.unsubscribeFromTopic j [req.DeviceID] cs[j]
         else env.subscribeToTopic j [req.DeviceID] cs[j]) = .ok (resps j)) →
      (processSubscription env req).calls =
        cs.map (fun c => ⟨req.Unsub, [req.DeviceID], c⟩)) ∧
    (∀ K (hK : K < cs.length),
      (∀ j (hj : j < K),
        (if req.Unsub then env.unsubscribeFromTopic j [req.DeviceID] (cs.get ⟨j, Nat.lt_trans hj hK⟩)
         else env.subscribeToTopic j [req.DeviceID] (cs.get ⟨j, Nat.lt_trans hj hK⟩)) =
          .ok (resps j)) →
      (if req.Unsub then env.unsubscribeFromTopic K [req.DeviceID] cs[K]
       else env.subscribeToTopic K [req.DeviceID] cs[K]) = .error () →
      (processSubscription env req).calls =
        (cs.take (K + 1)).map (fun c => ⟨req.Unsub, [req.DeviceID], c⟩)) := by
  have hfix := processSubscription_fixed_device env req cs hch hdev hcs h0
  constructor
  · intro hok
    have happ := subChannelLoop_append_ok env req.Unsub req.Uid req.DeviceID resps hin
      cs [] 0 (fun j hj => by simpa using hok j hj)
    rw [hfix]
    have : (subChannelLoop env req.Unsub req.Uid req.DeviceID 0 (cs ++ [])).calls =
        (subChannelLoop env req.Unsub req.Uid req.DeviceID 0 cs).calls := by
      rw [List.append_nil]
    rw [← this, happ.1]
    simp [subChannelLoop]
  · intro K hK hbefore hfail
    have hdecomp : cs = cs.take K ++ (cs[K] :: cs.drop (K + 1)) := by
      rw [← List.drop_eq_getElem_cons hK, List.take_append_drop]
    have hpre : ∀ j (hj : j < (cs.take K).length),
        (if req.Unsub then env.unsubscribeFromTopic (0 + j) [req.DeviceID] (cs.take K)[j]
         else env.subscribeToTopic (0 + j) [req.DeviceID] (cs.take K)[j]) =
          .ok (resps (0 + j)) := by
      intro j hj
      have hj' := hj
      simp [List.length_take] at hj'
      have hjK : j < K := hj'.1
      have hget : (cs.take K)[j] = cs[j] := List.getElem_take _
      rw [Nat.zero_add, hget]
      exact hbefore j hjK
    have hlen : (cs.take K).length = K := by
      simp [List.length_take]; omega
    have happ := subChannelLoop_append_ok env req.Unsub req.Uid req.DeviceID resps hin
      (cs.take K) (cs[K] :: cs.drop (K + 1)) 0 hpre
    have hstep := subChannelLoop_cons_fail env req.Unsub req.Uid req.DeviceID K
      cs[K] (cs.drop (K + 1)) hfail
    have htake : cs.take (K + 1) = cs.take K ++ [cs[K]] := by
      rw [List.take_succ]
      simp [List.getElem?_eq_getElem hK]
    rw [hfix]
    conv_lhs => rw [hdecomp]
    rw [show (subChannelLoop env req.Unsub req.Uid req.DeviceID 0
        (cs.take K ++ cs[K] :: cs.drop (K + 1))).calls = _ from happ.1]
    simp only [Nat.zero_add, hlen]
    rw [hstep, htake, List.map_append]
    rfl

/-- Witness for C4: one device, three channels, the second call fails;
exactly two calls occur, for the first two channels in order. -/
theorem processSubscription_fixed_device_per_channel_witness :
    (processSubscription subEnvFail2 ⟨5, "", "d1", false⟩).calls =
      [⟨false, ["d1"], "c1"⟩, ⟨false, ["d1"], "c2"⟩] :=
  (processSubscription_fixed_device_per_channel subEnvFail2 ⟨5, "", "d1", false⟩
    ["c1", "c2", "c3"] (fun _ => okResp) rfl (by decide) rfl (by decide)
    (fun j e he => by simp [okResp] at he)).2 1 (by decide)
    (fun j hj => by
      have : j = 0 := by omega
      subst this
      rfl)
    rfl

/-- A fixed-channel request whose resolved device list is non-empty and
within the batch limit: one bulk call with the full list. -/
theorem processSubscription_fixed_channel_small (env : SubEnv) (req : ChannelReq)
    (ds : List String) (hch : req.Channel ≠ "")
    (hds : env.devicesForUser req.Uid = ds) (h0 : ds ≠ [])
    (hle : ds.length ≤ subBatchSize) :
    processSubscription env req =
      (match (if req.Unsub then env.unsubscribeFromTopic 0 ds req.Channel
              else env.subscribeToTopic 0 ds req.Channel) with
       | .error _ => ⟨[⟨req.Unsub, ds, req.Channel⟩], [.warnSubFailed req.Unsub], false⟩
       | .ok resp => ⟨[⟨req.Unsub, ds, req.Channel⟩],
           (handleSubErrors resp req.Uid ds).1,
           (handleSubErrors resp req.Uid ds).2⟩) := by
  have hres : resolve env req = ⟨req.Channel, ds, "", []⟩ := by
    simp [resolve, hch, hds]
  have hlen0 : ds.length ≠ 0 := by simpa using h0
  have hngt : ¬ (ds.length > subBatchSize) := by omega
  have hpos : 0 < ds.length := Nat.pos_of_ne_zero hlen0
  unfold processSubscription
  rw [hres]
  simp [hch, hlen0, hngt, hpos]

/-- A fixed-channel request whose resolved device list exceeds the
batch limit: the list is truncated, a warning is logged, and one bulk
call is made with the truncated list. -/
theorem processSubscription_fixed_channel_big (env : SubEnv) (req : ChannelReq)
    (ds : List String) (hch : req.Channel ≠ "")
    (hds : env.devicesForUser req.Uid = ds) (hgt : ds.length > subBatchSize) :
    processSubscription env req =
      (match (if req.Unsub then env.unsubscribeFromTopic 0 (ds.take subBatchSize) req.Channel
              else env.subscribeToTopic 0 (ds.take subBatchSize) req.Channel) with
       | .error _ => ⟨[⟨req.Unsub, ds.take subBatchSize, req.Channel⟩],
           [.warnTooManyDevices req.Uid, .warnSubFailed req.Unsub], false⟩
       | .ok resp => ⟨[⟨req.Unsub, ds.take subBatchSize, req.Channel⟩],
           .warnTooManyDevices req.Uid :: (handleSubErrors resp req.Uid (ds.take subBatchSize)).1,
           (handleSubErrors resp req.Uid (ds.take subBatchSize)).2⟩) := by
  have hres : resolve env req = ⟨req.Channel, ds, "", []⟩ := by
    simp [resolve, hch, hds]
  have hlen0 : ds.length ≠ 0 := by omega
  have htk0 : 0 < (ds.take subBatchSize).length := by
    simp [List.length_take, subBatchSize]
    omega
  have hsb0 : subBatchSize ≠ 0 := by decide
  unfold processSubscription
  rw [hres]
  simp [hch, hlen0, hgt, htk0, hsb0]

/-- C6: a fixed-channel request resolving to `N` devices
(`0 < N ≤ 1000`) issues exactly one bulk call carrying all `N` tokens
against that channel; the call's operation follows the unsubscribe
flag. -/
theorem processSubscription_fixed_channel_single_call (env : SubEnv)
    (req : ChannelReq) (ds : List String) (hch : req.Channel ≠ "")
    (hds : env.devicesForUser req.Uid = ds) (h0 : ds ≠ [])
    (hle : ds.length ≤ subBatchSize) :
    (processSubscription env req).calls = [⟨req.Unsub, ds, req.Channel⟩] := by
  rw [processSubscription_fixed_channel_small env req ds hch hds h0 hle]
  cases hcall : (if req.Unsub then env.unsubscribeFromTopic 0 ds req.Channel
      else env.subscribeToTopic 0 ds req.Channel) <;> simp

/-- Witness for C6: three devices, one subscribe call with all three
tokens against the fixed channel. -/
theorem processSubscription_fixed_channel_single_call_witness :
    (processSubscription subEnvOk ⟨7, "topicA", "", false⟩).calls =
      [⟨false, ["t1", "t2", "t3"], "topicA"⟩] :=
  processSubscription_fixed_channel_single_call subEnvOk ⟨7, "topicA", "", false⟩
    ["t1", "t2", "t3"] (by decide) rfl (by decide) (by decide)

/-- C5: a fixed-channel request resolving to more than 1000 devices is
truncated to the first 1000 before the single provider call, a warning
is logged, and the request is not rejected (no error line). -/
theorem processSubscription_truncates (env : SubEnv) (req : ChannelReq)
    (ds : List String) (hch : req.Channel ≠ "")
    (hds : env.devicesForUser req.Uid = ds) (hgt : ds.length > subBatchSize) :
    (processSubscription env req).calls =
      [⟨req.Unsub, ds.take subBatchSize, req.Channel⟩] ∧
    (ds.take subBatchSize).length = subBatchSize ∧
    LogEntry.warnTooManyDevices req.Uid ∈ (processSubscription env req).logs ∧
    ((processSubscription env req).logs.any LogEntry.isErr) = false := by
  rw [processSubscription_fixed_channel_big env req ds hch hds hgt]
  have hlen : (ds.take subBatchSize).length = subBatchSize := by
    simp [List.length_take]
    omega
  cases hcall : (if req.Unsub then env.unsubscribeFromTopic 0 (ds.take subBatchSize) req.Channel
      else env.subscribeToTopic 0 (ds.take subBatchSize) req.Channel) with
  | error e => simp [hlen, LogEntry.isErr]
  | ok resp => simp [hlen, LogEntry.isErr, handleSubErrors_noErr]

/-- Witness for C5 at a 1001-device user. -/
theorem processSubscription_truncates_witness :
    (processSubscription subEnvBig ⟨9, "ch", "", false⟩).calls =
      [⟨false, (List.replicate 1001 "x").take subBatchSize, "ch"⟩] ∧
    ((List.replicate 1001 "x").take subBatchSize).length = subBatchSize ∧
    LogEntry.warnTooManyDevices 9 ∈ (processSubscription subEnvBig ⟨9, "ch", "", false⟩).logs ∧
    ((processSubscription subEnvBig ⟨9, "ch", "", false⟩).logs.any LogEntry.isErr) = false :=
  processSubscription_truncates subEnvBig ⟨9, "ch", "", false⟩
    (List.replicate 1001 "x") (by decide) rfl
    (by simp only [List.length_replicate, subBatchSize]; omega)

/-- C1: a request that resolves to nothing on both dimensions makes no
provider call, but — contrary to the specified behaviour — returns
silently: no error line is logged.  In fact no run of
`processSubscription` ever emits the "invalid combination" error line:
the branch that logs it is unreachable. -/
theorem processSubscription_empty_silent (env : SubEnv) (u : Uid) (unsub : Bool) :
    processSubscription env ⟨u, "", "", unsub⟩ = ⟨[], [], false⟩ ∧
    ∀ req : ChannelReq,
      ((processSubscription env req).logs.any LogEntry.isErr) = false := by
  constructor
  · simp [processSubscription, resolve]
  · intro req
    by_cases hch : req.Channel = ""
    · by_cases hdev : req.DeviceID = ""
      · simp [processSubscription, resolve, hch, hdev]
      · cases hcs : env.channelsForUser req.Uid with
        | nil =>
          have hres : resolve env req = ⟨"", [], req.DeviceID, []⟩ := by
            simp [resolve, hch, hdev, hcs]
          simp [processSubscription, hres]
        | cons c ct =>
          rw [processSubscription_fixed_device env req (c :: ct) hch hdev hcs
            (by simp)]
          exact subChannelLoop_noErr env req.Unsub req.Uid req.DeviceID 0 (c :: ct)
    · cases hds : env.devicesForUser req.Uid with
      | nil =>
        have hres : resolve env req = ⟨req.Channel, [], "", []⟩ := by
          simp [resolve, hch, hds]
        simp [processSubscription, hres]
      | cons d dt =>
        by_cases hgt : (d :: dt).length > subBatchSize
        · rw [processSubscription_fixed_channel_big env req (d :: dt) hch hds hgt]
          cases hcall : (if req.Unsub then
              env.unsubscribeFromTopic 0 ((d :: dt).take subBatchSize) req.Channel
            else env.subscribeToTopic 0 ((d :: dt).take subBatchSize) req.Channel) with
          | error e => simp [LogEntry.isErr]
          | ok resp => simp [LogEntry.isErr, handleSubErrors_noErr]
        · rw [processSubscription_fixed_channel_small env req (d :: dt) hch hds
            (by simp) (by omega)]
          cases hcall : (if req.Unsub then
              env.unsubscribeFromTopic 0 (d :: dt) req.Channel
            else env.subscribeToTopic 0 (d :: dt) req.Channel) with
          | error e => simp [LogEntry.isErr]
          | ok resp => simp [handleSubErrors_noErr]

/-- C9: inspecting a batch response is free of out-of-range access
whenever every reported failure index is below the length of the device
list passed to the call; with an index at or beyond the length (for a
single-device list, any index other than 0) the access is out of
range. -/
theorem handleSubErrors_index_bounds :
    (∀ (resp : TopicManagementResponse) (uid : Uid) (devices : List String),
      (∀ e ∈ resp.Errors, e.Index < devices.length) →
      (handleSubErrors resp uid devices).2 = false) ∧
    (handleSubErrors ⟨1, [⟨1, "reason"⟩]⟩ 0 ["d"]).2 = true :=
  ⟨fun resp uid devices h => handleSubErrors_inbounds resp uid devices h,
   by decide⟩

/-- Witness for C9: a single-device list with the one failure index 0
is accessed in bounds. -/
theorem handleSubErrors_index_bounds_witness :
    (∀ e ∈ ([⟨0, "reason"⟩] : List ErrorInfo), e.Index < (["d"] : List String).length) ∧
    (handleSubErrors ⟨1, [⟨0, "reason"⟩]⟩ 0 ["d"]).2 = false :=
  ⟨by decide, handleSubErrors_index_bounds.1 ⟨1, [⟨0, "reason"⟩]⟩ 0 ["d"] (by decide)⟩

/-- C10: `Stop` only places a value on the single-slot stop channel:
every other field is unchanged, so an initialized handler still reports
ready afterwards. -/
theorem Stop_frame (s : Handler) (h : s.stop.length < 1) :
    ∃ s', s.Stop = some s' ∧ s'.input = s.input ∧ s'.channel = s.channel ∧
      s'.ctx = s.ctx ∧ s'.client = s.client ∧ s'.stop = s.stop ++ [true] ∧
      s'.IsReady = s.IsReady := by
  refine ⟨{ s with stop := s.stop ++ [true] }, ?_, rfl, rfl, rfl, rfl, rfl, rfl⟩
  simp [Handler.Stop, h]

/-- Witness for C10 at an initialized handler with a free stop slot. -/
theorem Stop_frame_witness :
    handlerReady.stop.length < 1 ∧
    ∃ s', handlerReady.Stop = some s' ∧ s'.input = handlerReady.input ∧
      s'.channel = handlerReady.channel ∧ s'.ctx = handlerReady.ctx ∧
      s'.client = handlerReady.client ∧ s'.stop = handlerReady.stop ++ [true] ∧
      s'.IsReady = handlerReady.IsReady :=
  ⟨by decide, Stop_frame handlerReady (by decide)⟩

end FcmPush
